import Mathlib

/-!
# kubectl-trail: query building, backend discovery and the Loki range-query client

A shallow embedding of `main.go`, `pkg/loki/client.go` and
`pkg/loki/client_query_range.go`, followed by theorems about it.

Go strings are Lean `String`s, slices are `List`s, a Go `panic(msg)` or a returned
`error` is `Except.error msg`, and external collaborators (the Kubernetes API, the HTTP
transport, the clock) are fields of an explicit environment record.
-/

set_option autoImplicit false
set_option linter.dupNamespace false
set_option maxRecDepth 100000

deriving instance DecidableEq for Except

/-! ## The parts of the Go standard library the program relies on -/

namespace strings

/-- Go `strings.ContainsAny(s, chars)`: some code point of `s` occurs in `chars`. -/
def ContainsAny (s chars : String) : Bool :=
  s.data.any (fun c => chars.data.contains c)

/-- Go `strings.Join(elems, sep)`. -/
def Join : List String → String → String
  | [], _ => ""
  | [a], _ => a
  | a :: b :: rest, sep => a ++ sep ++ Join (b :: rest) sep

/-- Go `strings.TrimLeft(s, cutset)`: drop the leading code points that occur in `cutset`. -/
def TrimLeft (s cutset : String) : String :=
  String.mk (s.data.dropWhile (fun c => cutset.data.contains c))

/-- Go `strings.TrimRight(s, cutset)`: drop the trailing code points that occur in `cutset`. -/
def TrimRight (s cutset : String) : String :=
  String.mk (s.data.reverse.dropWhile (fun c => cutset.data.contains c)).reverse

/-- The loop of Go `strings.Split(s, sep)` for a one-character separator: `cur` holds the
characters of the piece being read, in reverse. -/
def splitAux (sep : Char) : List Char → List Char → List String
  | [], cur => [String.mk cur.reverse]
  | c :: cs, cur =>
    if c = sep then String.mk cur.reverse :: splitAux sep cs []
    else splitAux sep cs (c :: cur)

/-- Go `strings.Split(s, sep)` for a one-character separator `sep`. -/
def Split (s : String) (sep : Char) : List String :=
  splitAux sep s.data []

end strings

namespace strconv

/-- The `Err` field of a Go `*strconv.NumError`. -/
inductive NumError
  | ErrSyntax
  | ErrRange
  deriving DecidableEq, Repr

/-- The digit loop of Go `strconv.ParseUint(s, 10, 64)`: `n` is the value read so far, the
result is the returned value and error. `cutoff` is `maxUint64/10 + 1` and `maxVal` is
`1<<64 - 1`; the arithmetic is that of `uint64`. A byte that is not a decimal digit is a
syntax error (a letter has a digit value of at least 10, and an underscore is only
accepted for base 0). -/
def parseUintLoop : List Char → Nat → Nat × Option NumError
  | [], n => (n, none)
  | c :: cs, n =>
    if 48 ≤ c.toNat ∧ c.toNat ≤ 57 then
      let d := c.toNat - 48
      if n ≥ (2 ^ 64 - 1) / 10 + 1 then (2 ^ 64 - 1, some NumError.ErrRange)
      else
        let n10 := (n * 10) % 2 ^ 64
        let n1 := (n10 + d) % 2 ^ 64
        if n1 < n10 ∨ n1 > 2 ^ 64 - 1 then (2 ^ 64 - 1, some NumError.ErrRange)
        else parseUintLoop cs n1
    else (0, some NumError.ErrSyntax)

/-- Go `strconv.ParseUint(s, 10, 64)` on the characters of `s`. -/
def ParseUint (s : List Char) : Nat × Option NumError :=
  if s = [] then (0, some NumError.ErrSyntax) else parseUintLoop s 0

/-- The conversion `int64(x)` of an integer, two's complement on 64 bits. -/
def toInt64 (x : Int) : Int :=
  (x + 2 ^ 63) % 2 ^ 64 - 2 ^ 63

/-- The part of Go `strconv.ParseInt` after the sign has been picked off: `neg` is whether
a minus sign was read and `s` is the rest. -/
def parseIntSigned (neg : Bool) (s : List Char) : Int × Option NumError :=
  match ParseUint s with
  | (_, some NumError.ErrSyntax) => (0, some NumError.ErrSyntax)
  | (un, _) =>
    if !neg ∧ un ≥ 2 ^ 63 then (2 ^ 63 - 1, some NumError.ErrRange)
    else if neg ∧ un > 2 ^ 63 then (-(2 ^ 63), some NumError.ErrRange)
    else
      let n := toInt64 un
      (if neg then toInt64 (-n) else n, none)

/-- Go `strconv.ParseInt(s, 10, 64)`: the returned value and error. -/
def ParseInt (s : String) : Int × Option NumError :=
  match s.data with
  | [] => (0, some NumError.ErrSyntax)
  | c :: cs =>
    if c = '+' then parseIntSigned false cs
    else if c = '-' then parseIntSigned true cs
    else parseIntSigned false (c :: cs)

end strconv

namespace time

/-- A Go `time.Time`, as the seconds since the Unix epoch and the nanoseconds within the
second. -/
structure Time where
  sec : Int
  nsec : Int
  deriving DecidableEq, Repr

/-- The zero value `time.Time{}`: January 1 of the year 1, 00:00:00 UTC. -/
def Time.zero : Time :=
  { sec := -62135596800, nsec := 0 }

/-- Go `time.Unix(sec, nsec)`; the division truncates toward zero as in Go. -/
def Unix (sec nsec : Int) : Time :=
  if nsec < 0 ∨ nsec ≥ 1000000000 then
    let n := Int.tdiv nsec 1000000000
    let sec1 := sec + n
    let nsec1 := nsec - n * 1000000000
    if nsec1 < 0 then { sec := sec1 - 1, nsec := nsec1 + 1000000000 }
    else { sec := sec1, nsec := nsec1 }
  else { sec := sec, nsec := nsec }

/-- Go `Time.UnixNano()`: nanoseconds since the Unix epoch as an `int64`. -/
def Time.UnixNano (t : Time) : Int :=
  strconv.toInt64 (t.sec * 1000000000 + t.nsec)

/-- Go `Time.Add(d)` for a duration `d` in nanoseconds. -/
def Time.Add (t : Time) (d : Int) : Time :=
  let dsec := Int.tdiv d 1000000000
  let nsec := t.nsec + Int.tmod d 1000000000
  if nsec ≥ 1000000000 then { sec := t.sec + (dsec + 1), nsec := nsec - 1000000000 }
  else if nsec < 0 then { sec := t.sec + (dsec - 1), nsec := nsec + 1000000000 }
  else { sec := t.sec + dsec, nsec := nsec }

end time

namespace url

/-- Go `url.Values`, a map from a key to its values, as an association list. -/
abbrev Values := List (String × List String)

/-- Go `Values.Set(key, value)`: the key is bound to the single value. -/
def Values.Set (v : Values) (key value : String) : Values :=
  (key, [value]) :: v.filter (fun kv => kv.1 ≠ key)

/-- The map lookup `v[key]`, `none` when the key is absent. -/
def Values.lookup (v : Values) (key : String) : Option (List String) :=
  (v.find? (fun kv => kv.1 = key)).map (fun kv => kv.2)

/-- Go `url.getScheme`: the scheme of a raw URL (empty when there is none), or `none` for
the error "missing protocol scheme". `i` is the index of the byte read. -/
def getSchemeLoop (rawURL : List Char) : List Char → Nat → Option (List Char)
  | [], _ => some []
  | c :: cs, i =>
    if (97 ≤ c.toNat ∧ c.toNat ≤ 122) ∨ (65 ≤ c.toNat ∧ c.toNat ≤ 90) then
      getSchemeLoop rawURL cs (i + 1)
    else if (48 ≤ c.toNat ∧ c.toNat ≤ 57) ∨ c = '+' ∨ c = '-' ∨ c = '.' then
      if i = 0 then some [] else getSchemeLoop rawURL cs (i + 1)
    else if c = ':' then
      if i = 0 then none else some (rawURL.take i)
    else some []

/-- The scheme that Go `url.Parse(rawURL)` gives the parsed URL, or `none` when parsing
fails at or before the scheme: the fragment is cut off at the first `#`, a control byte is
rejected, `*` has no scheme, and `getScheme` splits the scheme off. The later checks of the
authority and the path are not modelled. -/
def ParseScheme (rawURL : String) : Option String :=
  let u := rawURL.data.takeWhile (fun c => c ≠ '#')
  if u.any (fun c => c.toNat < 32 ∨ c.toNat = 127) then none
  else if u = ['*'] then some ""
  else (getSchemeLoop u u 0).map (fun s => String.mk (s.map Char.toLower))

end url

/-! ## Errors, and the part of `encoding/json` that decodes a response -/

/-- A Go `error` value (or the value of a `panic`). -/
inductive Error
  /-- The result of `errors.New(msg)` or `fmt.Errorf(msg)`. -/
  | New (msg : String)
  /-- A `*strconv.NumError` of `strconv.ParseInt` on `num`. -/
  | NumError (num : String) (err : strconv.NumError)
  /-- A `*json.UnmarshalTypeError` for a JSON value of kind `value`. -/
  | UnmarshalTypeError (value : String)
  /-- A `*json.SyntaxError` whose message ends in `context`. -/
  | SyntaxError (context : String)
  /-- An error returned by an external collaborator. -/
  | External (msg : String)
  /-- A run-time panic such as a nil dereference. -/
  | Runtime (msg : String)
  deriving DecidableEq, Repr

/-- A parsed JSON value; a number keeps its literal, a string and an object key are
unquoted. -/
inductive JSON
  | null
  | bool (b : Bool)
  | number (literal : String)
  | string (s : String)
  | array (elems : List JSON)
  | object (members : List (String × JSON))

namespace json

/-- The outcome of scanning a piece of JSON text: a result and the text after it, a syntax
error (with the context of its message; the offending character and the offset are left
out), or the end of the text before the piece is complete. -/
inductive Scan (α : Type) where
  | ok (a : α) (rest : List Char)
  | syntaxError (context : String)
  | eof

/-- The function `isSpace` of the scanner. -/
def isSpace (c : Char) : Bool :=
  c == ' ' || c == '\t' || c == '\r' || c == '\n'

/-- Whether `c` is a decimal digit. -/
def isDigit (c : Char) : Bool :=
  decide (48 ≤ c.toNat ∧ c.toNat ≤ 57)

/-- The value of a hexadecimal digit. -/
def hexVal (c : Char) : Option Nat :=
  if 48 ≤ c.toNat ∧ c.toNat ≤ 57 then some (c.toNat - 48)
  else if 97 ≤ c.toNat ∧ c.toNat ≤ 102 then some (c.toNat - 97 + 10)
  else if 65 ≤ c.toNat ∧ c.toNat ≤ 70 then some (c.toNat - 65 + 10)
  else none

/-- The function `getu4`: the code unit of a `\uXXXX` escape at the head of `s`, if there is
one. -/
def getu4 (s : List Char) : Option Nat :=
  match s with
  | b :: u :: h1 :: h2 :: h3 :: h4 :: _ =>
    if b = '\\' ∧ u = 'u' then
      match hexVal h1, hexVal h2, hexVal h3, hexVal h4 with
      | some a, some b, some c, some d => some (((a * 16 + b) * 16 + c) * 16 + d)
      | _, _, _, _ => none
    else none
  | _ => none

/-- The `n` hexadecimal digits after `\u`, read after the value `r`. -/
def scanHex : Nat → List Char → Nat → Scan Nat
  | 0, cs, r => Scan.ok r cs
  | _ + 1, [], _ => Scan.eof
  | n + 1, c :: cs, r =>
    match hexVal c with
    | some h => scanHex n cs (r * 16 + h)
    | none => Scan.syntaxError "in \\u hexadecimal character escape"

/-- A string literal after its opening quote, unquoted as by `unquote`: `acc` holds the
characters read, in reverse. A surrogate code unit that is not the first half of a valid
pair becomes U+FFFD. The fuel bounds the number of characters read. -/
def scanString : Nat → List Char → List Char → Scan String
  | 0, _, _ => Scan.eof
  | fuel + 1, cs, acc =>
    match cs with
    | [] => Scan.eof
    | c :: rest =>
      if c = '"' then Scan.ok (String.mk acc.reverse) rest
      else if c = '\\' then
        match rest with
        | [] => Scan.eof
        | e :: rest2 =>
          if e = 'b' then scanString fuel rest2 (Char.ofNat 8 :: acc)
          else if e = 'f' then scanString fuel rest2 (Char.ofNat 12 :: acc)
          else if e = 'n' then scanString fuel rest2 (Char.ofNat 10 :: acc)
          else if e = 'r' then scanString fuel rest2 (Char.ofNat 13 :: acc)
          else if e = 't' then scanString fuel rest2 (Char.ofNat 9 :: acc)
          else if e = '\\' ∨ e = '/' ∨ e = '"' then scanString fuel rest2 (e :: acc)
          else if e = 'u' then
            match scanHex 4 rest2 0 with
            | Scan.syntaxError context => Scan.syntaxError context
            | Scan.eof => Scan.eof
            | Scan.ok rr rest3 =>
              if 0xD800 ≤ rr ∧ rr < 0xE000 then
                match getu4 rest3 with
                | some rr1 =>
                  if rr < 0xDC00 ∧ 0xDC00 ≤ rr1 ∧ rr1 < 0xE000 then
                    scanString fuel (rest3.drop 6)
                      (Char.ofNat ((rr - 0xD800) * 1024 + (rr1 - 0xDC00) + 0x10000) :: acc)
                  else scanString fuel rest3 (Char.ofNat 0xFFFD :: acc)
                | none => scanString fuel rest3 (Char.ofNat 0xFFFD :: acc)
              else scanString fuel rest3 (Char.ofNat rr :: acc)
          else Scan.syntaxError "in string escape code"
      else if c.toNat < 32 then Scan.syntaxError "in string literal"
      else scanString fuel rest (c :: acc)

/-- The exponent of a number after its `e`; `lit` is the literal read so far. -/
def scanExp (lit cs : List Char) : Scan String :=
  match cs with
  | [] => Scan.eof
  | c :: rest =>
    let signed := if c = '+' ∨ c = '-' then (lit ++ [c], rest) else (lit, c :: rest)
    match signed.2 with
    | [] => Scan.eof
    | d :: _ =>
      if isDigit d then
        Scan.ok (String.mk (signed.1 ++ signed.2.takeWhile isDigit)) (signed.2.dropWhile isDigit)
      else Scan.syntaxError "in exponent of numeric literal"

/-- The optional exponent of a number. -/
def scanExpOpt (lit cs : List Char) : Scan String :=
  match cs with
  | [] => Scan.ok (String.mk lit) []
  | c :: rest =>
    if c = 'e' ∨ c = 'E' then scanExp (lit ++ [c]) rest else Scan.ok (String.mk lit) (c :: rest)

/-- The optional fraction and exponent of a number, after its integer part. -/
def scanFrac (lit cs : List Char) : Scan String :=
  match cs with
  | [] => Scan.ok (String.mk lit) []
  | c :: rest =>
    if c = '.' then
      match rest with
      | [] => Scan.eof
      | d :: _ =>
        if isDigit d then
          scanExpOpt (lit ++ '.' :: rest.takeWhile isDigit) (rest.dropWhile isDigit)
        else Scan.syntaxError "after decimal point in numeric literal"
    else scanExpOpt lit (c :: rest)

/-- The integer part of a number and what follows it: `0`, or a non-zero digit and more
digits. -/
def scanInt (lit cs : List Char) : Scan String :=
  match cs with
  | [] => Scan.eof
  | c :: rest =>
    if c = '0' then scanFrac (lit ++ [c]) rest
    else if isDigit c then
      scanFrac (lit ++ c :: rest.takeWhile isDigit) (rest.dropWhile isDigit)
    else Scan.syntaxError "in numeric literal"

/-- A number literal, kept as its text. -/
def scanNumber (cs : List Char) : Scan String :=
  match cs with
  | [] => Scan.eof
  | c :: rest => if c = '-' then scanInt [c] rest else scanInt [] (c :: rest)

/-- The rest of one of the literals `true`, `false` and `null`. -/
def scanWord : List Char → List Char → Scan Unit
  | [], cs => Scan.ok () cs
  | _ :: _, [] => Scan.eof
  | w :: ws, c :: cs => if c = w then scanWord ws cs else Scan.syntaxError "in literal"

/-- The elements of an array after the first one, up to the closing bracket; `value` scans
one value. -/
def scanElements (value : List Char → Scan JSON) :
    Nat → List Char → List JSON → Scan (List JSON)
  | 0, _, _ => Scan.eof
  | fuel + 1, cs, acc =>
    match cs.dropWhile isSpace with
    | [] => Scan.eof
    | c :: rest =>
      if c = ',' then
        match value rest with
        | Scan.ok v rest2 => scanElements value fuel rest2 (acc ++ [v])
        | Scan.syntaxError context => Scan.syntaxError context
        | Scan.eof => Scan.eof
      else if c = ']' then Scan.ok acc rest
      else Scan.syntaxError "after array element"

/-- One `key: value` member of an object. -/
def scanMember (value : List Char → Scan JSON) (cs : List Char) : Scan (String × JSON) :=
  match cs.dropWhile isSpace with
  | [] => Scan.eof
  | c :: rest =>
    if c = '"' then
      match scanString (rest.length + 1) rest [] with
      | Scan.syntaxError context => Scan.syntaxError context
      | Scan.eof => Scan.eof
      | Scan.ok key rest2 =>
        match rest2.dropWhile isSpace with
        | [] => Scan.eof
        | c2 :: rest3 =>
          if c2 = ':' then
            match value rest3 with
            | Scan.ok v rest4 => Scan.ok (key, v) rest4
            | Scan.syntaxError context => Scan.syntaxError context
            | Scan.eof => Scan.eof
          else Scan.syntaxError "after object key"
    else Scan.syntaxError "looking for beginning of object key string"

/-- The members of an object after the first one, up to the closing brace. -/
def scanMembers (value : List Char → Scan JSON) :
    Nat → List Char → List (String × JSON) → Scan (List (String × JSON))
  | 0, _, _ => Scan.eof
  | fuel + 1, cs, acc =>
    match cs.dropWhile isSpace with
    | [] => Scan.eof
    | c :: rest =>
      if c = ',' then
        match scanMember value rest with
        | Scan.ok m rest2 => scanMembers value fuel rest2 (acc ++ [m])
        | Scan.syntaxError context => Scan.syntaxError context
        | Scan.eof => Scan.eof
      else if c = '\x7d' then Scan.ok acc rest
      else Scan.syntaxError "after object key:value pair"

/-- One JSON value at the head of a text, after optional white space, as the scanner of
`encoding/json` accepts it; `depth` is the number of enclosing arrays and objects, which
may not exceed 10000. The fuel bounds the nesting and the number of elements; the length
of the text plus one is enough. -/
def scanValue : Nat → Nat → List Char → Scan JSON
  | 0, _, _ => Scan.eof
  | fuel + 1, depth, cs =>
    match cs.dropWhile isSpace with
    | [] => Scan.eof
    | c :: rest =>
      if c = '\x7b' then
        if depth + 1 > 10000 then Scan.syntaxError "exceeded max depth"
        else
          match rest.dropWhile isSpace with
          | [] => Scan.eof
          | c2 :: rest2 =>
            if c2 = '\x7d' then Scan.ok (JSON.object []) rest2
            else
              match scanMember (scanValue fuel (depth + 1)) (c2 :: rest2) with
              | Scan.syntaxError context => Scan.syntaxError context
              | Scan.eof => Scan.eof
              | Scan.ok m rest3 =>
                match scanMembers (scanValue fuel (depth + 1)) fuel rest3 [m] with
                | Scan.syntaxError context => Scan.syntaxError context
                | Scan.eof => Scan.eof
                | Scan.ok ms rest4 => Scan.ok (JSON.object ms) rest4
      else if c = '[' then
        if depth + 1 > 10000 then Scan.syntaxError "exceeded max depth"
        else
          match rest.dropWhile isSpace with
          | [] => Scan.eof
          | c2 :: rest2 =>
            if c2 = ']' then Scan.ok (JSON.array []) rest2
            else
              match scanValue fuel (depth + 1) (c2 :: rest2) with
              | Scan.syntaxError context => Scan.syntaxError context
              | Scan.eof => Scan.eof
              | Scan.ok v rest3 =>
                match scanElements (scanValue fuel (depth + 1)) fuel rest3 [v] with
                | Scan.syntaxError context => Scan.syntaxError context
                | Scan.eof => Scan.eof
                | Scan.ok vs rest4 => Scan.ok (JSON.array vs) rest4
      else if c = '"' then
        match scanString (rest.length + 1) rest [] with
        | Scan.syntaxError context => Scan.syntaxError context
        | Scan.eof => Scan.eof
        | Scan.ok s rest2 => Scan.ok (JSON.string s) rest2
      else if c = '-' ∨ isDigit c then
        match scanNumber (c :: rest) with
        | Scan.syntaxError context => Scan.syntaxError context
        | Scan.eof => Scan.eof
        | Scan.ok lit rest2 => Scan.ok (JSON.number lit) rest2
      else if c = 't' then
        match scanWord ['r', 'u', 'e'] rest with
        | Scan.syntaxError context => Scan.syntaxError context
        | Scan.eof => Scan.eof
        | Scan.ok _ rest2 => Scan.ok (JSON.bool true) rest2
      else if c = 'f' then
        match scanWord ['a', 'l', 's', 'e'] rest with
        | Scan.syntaxError context => Scan.syntaxError context
        | Scan.eof => Scan.eof
        | Scan.ok _ rest2 => Scan.ok (JSON.bool false) rest2
      else if c = 'n' then
        match scanWord ['u', 'l', 'l'] rest with
        | Scan.syntaxError context => Scan.syntaxError context
        | Scan.eof => Scan.eof
        | Scan.ok _ rest2 => Scan.ok JSON.null rest2
      else Scan.syntaxError "looking for beginning of value"

/-- Whether the character `k` of a key matches the character `n` of an ASCII field name
under Unicode simple case folding, as in `bytes.EqualFold`: besides the two cases of a
letter, U+017F matches `s` and U+212A matches `k`. -/
def foldChar (n k : Char) : Bool :=
  k == n || k.toLower == n.toLower || (n.toLower == 's' && k == Char.ofNat 0x17F)
    || (n.toLower == 'k' && k == Char.ofNat 0x212A)

/-- The function `bytes.EqualFold(name, key)` for an ASCII `name`. -/
def equalFold : List Char → List Char → Bool
  | [], [] => true
  | n :: ns, k :: ks => foldChar n k && equalFold ns ks
  | _, _ => false

/-- The field of a struct, given by the JSON names of its fields, that an object key
selects: the field of that exact name, or else the first field matching under case
folding. -/
def field (fields : List String) (key : String) : Option String :=
  match fields.find? (fun f => f = key) with
  | some f => some f
  | none => fields.find? (fun f => equalFold f.data key.data)

/-- The first error that the decoder saves while it goes on decoding (`d.saveError`). -/
def saveError (saved : Option Error) (err : Error) : Option Error :=
  match saved with
  | some e => some e
  | none => some err

/-- The `*json.UnmarshalTypeError` for a JSON value that does not fit the Go type. -/
def typeError : JSON → Error
  | JSON.null => Error.UnmarshalTypeError "null"
  | JSON.bool _ => Error.UnmarshalTypeError "bool"
  | JSON.number _ => Error.UnmarshalTypeError "number"
  | JSON.string _ => Error.UnmarshalTypeError "string"
  | JSON.array _ => Error.UnmarshalTypeError "array"
  | JSON.object _ => Error.UnmarshalTypeError "object"

/-- Decoding the JSON value `v` into a Go `string` that holds `cur`: the new value and the
saved error. A JSON `null` leaves the string as it is. -/
def decodeString (cur : String) (v : JSON) (saved : Option Error) : String × Option Error :=
  match v with
  | JSON.string s => (s, saved)
  | JSON.null => (cur, saved)
  | other => (cur, saveError saved (typeError other))

/-- The map assignment `m[key] = value`, for a map kept as an association list. -/
def mapSet (m : List (String × String)) (key value : String) : List (String × String) :=
  m.filter (fun kv => kv.1 ≠ key) ++ [(key, value)]

/-- The members of a JSON object decoded into the `map[string]string` `m`: every member is
decoded into a fresh string, which is then stored under the key. -/
def decodeMapMembers :
    List (String × JSON) → List (String × String) → Option Error →
      List (String × String) × Option Error
  | [], m, saved => (m, saved)
  | (key, v) :: rest, m, saved =>
    decodeMapMembers rest (mapSet m key (decodeString "" v saved).1) (decodeString "" v saved).2

/-- Decoding the JSON value `v` into a `map[string]string` that holds `cur`: an object is
merged into the map, `null` sets the map to nil. -/
def decodeMap (cur : List (String × String)) (v : JSON) (saved : Option Error) :
    List (String × String) × Option Error :=
  match v with
  | JSON.object members => decodeMapMembers members cur saved
  | JSON.null => ([], saved)
  | other => (cur, saveError saved (typeError other))

end json

/-! ## `pkg/loki/client.go` -/

namespace loki

/-- The `*http.Client` a `Client` sends its requests with. -/
inductive HTTPClient
  /-- The value `http.DefaultClient`. -/
  | DefaultClient
  /-- The result of `rest.HTTPClientFor(restConfig)` for the API server `host`. -/
  | RestClient (host : String)
  deriving DecidableEq, Repr

/-- The struct `Client`. -/
structure Client where
  url : String
  client : HTTPClient
  deriving DecidableEq, Repr

/-- The function `New(url, options...)`; an `Option` is a function on `Client`. -/
def New (url : String) (options : List (Client → Client)) : Client :=
  options.foldl (fun c option => option c)
    { url := strings.TrimRight url "/", client := HTTPClient.DefaultClient }

/-- The function `WithClient(client)`. -/
def WithClient (client : HTTPClient) : Client → Client :=
  fun c => { c with client := client }

/-- The body of an `*http.Response` as a reader: the text that reading it yields, and the
error that ends the reading (`none` for `io.EOF`, the regular end). -/
structure Body where
  data : String
  err : Option Error

/-- An `*http.Response`. -/
structure HTTPResponse where
  StatusCode : Int
  Status : String
  Body : Body

/-- The function `handleError(resp)`; `io.ReadAll` fails when reading the body ends with an
error. -/
def handleError (resp : HTTPResponse) : Error :=
  match resp.Body.err with
  | some _ => Error.New ("error " ++ resp.Status)
  | none => Error.New resp.Body.data

/-- The struct `Log`. -/
structure Log where
  Timestamp : time.Time
  Text : String
  deriving DecidableEq, Repr

/-- The struct `Stream`; the map `Stream` is an association list. -/
structure Stream where
  Stream : List (String × String)
  Values : List Log
  deriving DecidableEq, Repr

/-- The struct `Response[Stream]`. -/
structure Response where
  Status : String
  ResultType : String
  Result : List Stream
  deriving DecidableEq, Repr

/-- Go `json.Unmarshal(data, &tmp)` for `var tmp []any` (nil, of length 0) and `data` the
encoding of the JSON value `v`: the new value of `tmp`, or the error. A JSON `null` leaves
`tmp` nil. The elements are kept as JSON values: their conversion to Go values, which
fails for a number literal outside the range of `float64`, is not modelled. -/
def unmarshalSlice : JSON → Except Error (List JSON)
  | JSON.array elems => Except.ok elems
  | JSON.null => Except.ok []
  | JSON.bool _ => Except.error (Error.UnmarshalTypeError "bool")
  | JSON.number _ => Except.error (Error.UnmarshalTypeError "number")
  | JSON.string _ => Except.error (Error.UnmarshalTypeError "string")
  | JSON.object _ => Except.error (Error.UnmarshalTypeError "object")

/-- The method `(l *Log) UnmarshalJSON(data)`, for `data` the encoding of the JSON value
`v`: the value of `*l` afterwards and the returned error (`none` for `nil`). -/
def Log.UnmarshalJSON (l : Log) (v : JSON) : Log × Option Error :=
  match unmarshalSlice v with
  | Except.error err => (l, some err)
  | Except.ok tmp =>
    match tmp with
    | [t0, t1] =>
      match t0 with
      | JSON.string tsStr =>
        match strconv.ParseInt tsStr with
        | (_, some err) => (l, some (Error.NumError tsStr err))
        | (tsInt, none) =>
          let l1 := { l with Timestamp := time.Unix 0 tsInt }
          match t1 with
          | JSON.string line => ({ l1 with Text := line }, none)
          | _ => (l1, some (Error.New "log line is not a string"))
      | _ => (l, some (Error.New "timestamp is not a string"))
    | _ => (l, some (Error.New "expected array of two elements"))

/-- The zero value of `Log`. -/
def Log.zero : Log :=
  { Timestamp := time.Time.zero, Text := "" }

/-- The zero value of `Stream`. -/
def Stream.zero : loki.Stream :=
  { Stream := [], Values := [] }

/-- The zero value of `Response[Stream]`. -/
def Response.zero : Response :=
  { Status := "", ResultType := "", Result := [] }

/-- The elements of a JSON array decoded into the `[]Log` `cur`: element `i` is handed to
`UnmarshalJSON` on the `Log` at index `i` (the zero value past the length of `cur`), and
the first error of `UnmarshalJSON` ends the decoding. -/
def decodeLogElems : List JSON → List Log → Except Error (List Log)
  | [], _ => Except.ok []
  | e :: es, cur =>
    match Log.UnmarshalJSON (cur.headD Log.zero) e with
    | (_, some err) => Except.error err
    | (l, none) =>
      match decodeLogElems es cur.tail with
      | Except.error err => Except.error err
      | Except.ok ls => Except.ok (l :: ls)

/-- Decoding the JSON value `v` into the field `Values []Log` that holds `cur`. -/
def decodeLogs (cur : List Log) (v : JSON) (saved : Option Error) :
    Except Error (List Log × Option Error) :=
  match v with
  | JSON.array elems =>
    match decodeLogElems elems cur with
    | Except.error err => Except.error err
    | Except.ok ls => Except.ok (ls, saved)
  | JSON.null => Except.ok ([], saved)
  | other => Except.ok (cur, json.saveError saved (json.typeError other))

/-- The members of a JSON object decoded into the `Stream` `s`, whose fields have the JSON
names `stream` and `values`; a key that selects no field is skipped. -/
def decodeStreamMembers :
    List (String × JSON) → Stream → Option Error → Except Error (Stream × Option Error)
  | [], s, saved => Except.ok (s, saved)
  | (key, v) :: rest, s, saved =>
    match json.field ["stream", "values"] key with
    | none => decodeStreamMembers rest s saved
    | some f =>
      if f = "stream" then
        decodeStreamMembers rest { s with Stream := (json.decodeMap s.Stream v saved).1 }
          (json.decodeMap s.Stream v saved).2
      else
        match decodeLogs s.Values v saved with
        | Except.error err => Except.error err
        | Except.ok (ls, saved2) => decodeStreamMembers rest { s with Values := ls } saved2

/-- Decoding the JSON value `v` into a `Stream` that holds `cur`. -/
def decodeStream (cur : Stream) (v : JSON) (saved : Option Error) :
    Except Error (Stream × Option Error) :=
  match v with
  | JSON.object members => decodeStreamMembers members cur saved
  | JSON.null => Except.ok (cur, saved)
  | other => Except.ok (cur, json.saveError saved (json.typeError other))

/-- The elements of a JSON array decoded into the `[]Stream` `cur`: element `i` is decoded
into the `Stream` at index `i` (the zero value past the length of `cur`). -/
def decodeStreamElems :
    List JSON → List Stream → Option Error → Except Error (List Stream × Option Error)
  | [], _, saved => Except.ok ([], saved)
  | e :: es, cur, saved =>
    match decodeStream (cur.headD Stream.zero) e saved with
    | Except.error err => Except.error err
    | Except.ok (st, saved2) =>
      match decodeStreamElems es cur.tail saved2 with
      | Except.error err => Except.error err
      | Except.ok (sts, saved3) => Except.ok (st :: sts, saved3)

/-- Decoding the JSON value `v` into the field `Result []Stream` that holds `cur`. -/
def decodeStreams (cur : List Stream) (v : JSON) (saved : Option Error) :
    Except Error (List Stream × Option Error) :=
  match v with
  | JSON.array elems => decodeStreamElems elems cur saved
  | JSON.null => Except.ok ([], saved)
  | other => Except.ok (cur, json.saveError saved (json.typeError other))

/-- The members of a JSON object decoded into the struct `Data` of the response `r`, whose
fields have the JSON names `resultType` and `result`. -/
def decodeDataMembers :
    List (String × JSON) → Response → Option Error → Except Error (Response × Option Error)
  | [], r, saved => Except.ok (r, saved)
  | (key, v) :: rest, r, saved =>
    match json.field ["resultType", "result"] key with
    | none => decodeDataMembers rest r saved
    | some f =>
      if f = "resultType" then
        decodeDataMembers rest
          { r with ResultType := (json.decodeString r.ResultType v saved).1 }
          (json.decodeString r.ResultType v saved).2
      else
        match decodeStreams r.Result v saved with
        | Except.error err => Except.error err
        | Except.ok (sts, saved2) => decodeDataMembers rest { r with Result := sts } saved2

/-- Decoding the JSON value `v` into the struct `Data` of the response `cur`. -/
def decodeData (cur : Response) (v : JSON) (saved : Option Error) :
    Except Error (Response × Option Error) :=
  match v with
  | JSON.object members => decodeDataMembers members cur saved
  | JSON.null => Except.ok (cur, saved)
  | other => Except.ok (cur, json.saveError saved (json.typeError other))

/-- The members of a JSON object decoded into the response `r`, whose fields have the JSON
names `status` and `data`. -/
def decodeResponseMembers :
    List (String × JSON) → Response → Option Error → Except Error (Response × Option Error)
  | [], r, saved => Except.ok (r, saved)
  | (key, v) :: rest, r, saved =>
    match json.field ["status", "data"] key with
    | none => decodeResponseMembers rest r saved
    | some f =>
      if f = "status" then
        decodeResponseMembers rest { r with Status := (json.decodeString r.Status v saved).1 }
          (json.decodeString r.Status v saved).2
      else
        match decodeData r v saved with
        | Except.error err => Except.error err
        | Except.ok (r2, saved2) => decodeResponseMembers rest r2 saved2

/-- Decoding the JSON value `v` into a `Response[Stream]` that holds `cur`. -/
def decodeResponse (cur : Response) (v : JSON) (saved : Option Error) :
    Except Error (Response × Option Error) :=
  match v with
  | JSON.object members => decodeResponseMembers members cur saved
  | JSON.null => Except.ok (cur, saved)
  | other => Except.ok (cur, json.saveError saved (json.typeError other))

/-- The decoding of the JSON value `v` into `var response Response[Stream]`: an error of
`UnmarshalJSON` is returned at once, otherwise the first saved error if there is one. -/
def Unmarshal (v : JSON) : Except Error Response :=
  match decodeResponse Response.zero v none with
  | Except.error err => Except.error err
  | Except.ok (_, some err) => Except.error err
  | Except.ok (response, none) => Except.ok response

/-- The call `json.NewDecoder(resp.Body).Decode(&response)`: the decoder reads the first
JSON value of the body and decodes it; what follows the value is not read. An array or an
object is complete at its closing bracket; any other value is complete at the next
character, or at the regular end of the body. -/
def Decode (body : Body) : Except Error Response :=
  match json.scanValue (body.data.length + 1) 0 body.data.data with
  | json.Scan.syntaxError context => Except.error (Error.SyntaxError context)
  | json.Scan.eof =>
    match body.err with
    | some err => Except.error err
    | none =>
      if body.data.data.any (fun c => !json.isSpace c) then
        Except.error (Error.New "unexpected EOF")
      else Except.error (Error.New "EOF")
  | json.Scan.ok v rest =>
    match v, rest, body.err with
    | JSON.array _, _, _ => Unmarshal v
    | JSON.object _, _, _ => Unmarshal v
    | _, [], some err => Except.error err
    | _, _, _ => Unmarshal v

end loki

/-! ## `pkg/loki/client_query_range.go` -/

namespace loki

/-- The struct `QueryRangeOptions`; a nil pointer field is `none`. -/
structure QueryRangeOptions where
  Limit : Option Int
  Start : Option time.Time
  End : Option time.Time
  deriving DecidableEq, Repr

/-- The request parameters `values` that `Client.QueryRange` builds; `options` is `none`
for a nil pointer. `fmt.Sprintf("%d", n)` is the decimal rendering of `n`. -/
def queryRangeValues (query : String) (options : Option QueryRangeOptions) : url.Values :=
  let options : QueryRangeOptions :=
    match options with
    | none => { Limit := none, Start := none, End := none }
    | some o => o
  let values : url.Values := []
  let values := if query ≠ "" then values.Set "query" query else values
  let values :=
    match options.Limit with
    | some _ => values.Set "limit" "100"
    | none => values
  let values :=
    match options.Start with
    | some start => values.Set "start" (toString start.UnixNano)
    | none => values
  match options.End with
  | some e => values.Set "end" (toString e.UnixNano)
  | none => values

/-- The request `r` sent by `Client.QueryRange`: a GET of `Path` with the query parameters
`Values` (the URL encoding of the parameters is left to the transport). -/
structure Request where
  Method : String
  Path : String
  Values : url.Values
  deriving DecidableEq, Repr

/-- The collaborators of `Client.QueryRange`. -/
structure Transport where
  /-- Whether `url.Parse(rawURL)` succeeds; the URL it returns is nil when it fails. Which
  hosts are accepted depends on the version of Go. -/
  Parse : String → Bool
  /-- Whether `http.NewRequest(http.MethodGet, u.String(), nil)` succeeds, for `u` parsed
  from the raw URL and given the query parameters; the request is nil when it fails. -/
  NewRequest : String → url.Values → Bool
  /-- The outcome of `c.client.Do(r)`. -/
  Do : HTTPClient → Request → Except Error HTTPResponse

/-- The method `(c *Client) QueryRange(query, options)`. The errors of `url.Parse` and
`http.NewRequest` are dropped by the code: after a failure `u` (or `r`) is nil and the
assignment to `u.RawQuery` (or the call `c.client.Do(r)`) is a nil dereference. -/
def Client.QueryRange (tr : Transport) (c : Client) (query : String)
    (options : Option QueryRangeOptions) : Except Error Response :=
  let values := queryRangeValues query options
  if tr.Parse (c.url ++ "/loki/api/v1/query_range") = false then
    Except.error (Error.Runtime "invalid memory address or nil pointer dereference")
  else if tr.NewRequest (c.url ++ "/loki/api/v1/query_range") values = false then
    Except.error (Error.Runtime "invalid memory address or nil pointer dereference")
  else
    let r : Request :=
      { Method := "GET", Path := c.url ++ "/loki/api/v1/query_range", Values := values }
    match tr.Do c.client r with
    | Except.error err => Except.error err
    | Except.ok resp =>
      if resp.StatusCode ≠ 200 then Except.error (handleError resp)
      else
        match Decode resp.Body with
        | Except.error err => Except.error err
        | Except.ok response => Except.ok response

end loki

/-! ## `main.go`: backend resolution (`kubernetesConfig`, `lokiClient`) -/

namespace trail

/-- The fields of a Kubernetes `Service` that discovery reads. -/
structure Service where
  Namespace : String
  Name : String
  ClusterIP : String
  Ports : List Int
  deriving DecidableEq, Repr

/-- The collaborators of `kubernetesConfig` and `lokiClient`. A client config is
represented by the outcome of its `ClientConfig()` method, which is a rest config, itself
represented by its `Host`. -/
structure Cluster where
  /-- The outcome of `os.UserHomeDir()`. -/
  UserHomeDir : Except Error String
  /-- The function `filepath.Join`. -/
  Join : List String → String
  /-- The outcome of `os.ReadFile(name)`. -/
  ReadFile : String → Except Error String
  /-- The outcome of `clientcmd.NewClientConfigFromBytes(data)`. -/
  NewClientConfigFromBytes : String → Except Error (Except Error String)
  /-- The outcome of `kubernetes.NewForConfig(restConfig)`. -/
  NewForConfig : String → Except Error Unit
  /-- The outcome of `rest.HTTPClientFor(restConfig)`. -/
  HTTPClientFor : String → Except Error loki.HTTPClient
  /-- The outcome of `client.CoreV1().Services(namespace).List` with a label selector. -/
  List : String → String → Except Error (List Service)
  /-- The rendering `u.String()` of the URL parsed from a raw URL. -/
  URLString : String → String

/-- The function `kubernetesConfig()`. -/
def kubernetesConfig (k : Cluster) : Except Error (Except Error String) :=
  match k.UserHomeDir with
  | Except.error err => Except.error err
  | Except.ok home =>
    let kubeconfig := k.Join [home, ".kube", "config"]
    match k.ReadFile kubeconfig with
    | Except.error err => Except.error err
    | Except.ok data => k.NewClientConfigFromBytes data

/-- The inner loop of `discoverService` over `service.Spec.Ports`: whether it reaches the
`return` (some port is 3100). -/
def portLoop : List Int → Bool
  | [] => false
  | port :: ports => if port ≠ 3100 then portLoop ports else true

/-- The first loop of `discoverService` over `services.Items`: services whose `ClusterIP`
is not `"None"` are skipped. -/
def headlessLoop : List Service → Option (String × String)
  | [] => none
  | service :: items =>
    if service.ClusterIP ≠ "None" then headlessLoop items
    else if portLoop service.Ports then some (service.Namespace, service.Name)
    else headlessLoop items

/-- The second loop of `discoverService` over `services.Items`. -/
def anyLoop : List Service → Option (String × String)
  | [] => none
  | service :: items =>
    if portLoop service.Ports then some (service.Namespace, service.Name)
    else anyLoop items

/-- The closure `discoverService(namespace)` of `lokiClient`. -/
def discoverService (k : Cluster) (ns : String) : String × String × Bool :=
  match k.List ns "app.kubernetes.io/name=loki" with
  | Except.error _ => ("", "", false)
  | Except.ok items =>
    match headlessLoop items with
    | some (ns, name) => (ns, name, true)
    | none =>
      match anyLoop items with
      | some (ns, name) => (ns, name, true)
      | none => ("", "", false)

/-- The function `lokiClient(lokiURL)`. When `url.Parse` fails, `u` is nil and `u.IsAbs()`
is a nil dereference; the failures of `url.Parse` after the scheme are not modelled (see
`url.ParseScheme`). -/
def lokiClient (k : Cluster) (lokiURL : String) : Except Error loki.Client :=
  match url.ParseScheme lokiURL with
  | none => Except.error (Error.Runtime "invalid memory address or nil pointer dereference")
  | some scheme =>
    if scheme ≠ "" then Except.ok (loki.New (k.URLString lokiURL) [])
    else
      match kubernetesConfig k with
      | Except.error err => Except.error err
      | Except.ok clientConfig =>
        match clientConfig with
        | Except.error err => Except.error err
        | Except.ok restConfig =>
          match k.NewForConfig restConfig with
          | Except.error err => Except.error err
          | Except.ok _ =>
            match k.HTTPClientFor restConfig with
            | Except.error err => Except.error err
            | Except.ok restClient =>
              let parts := strings.Split lokiURL '/'
              let parts :=
                if lokiURL = "" then
                  match discoverService k "" with
                  | (ns, service, true) => [ns, service]
                  | (_, _, false) => parts
                else parts
              match parts with
              | [ns, service] =>
                Except.ok (loki.New
                  (restConfig ++ "/api/v1/namespaces/" ++ ns ++ "/services/" ++ service
                    ++ ":" ++ toString (3100 : Int) ++ "/proxy")
                  [loki.WithClient restClient])
              | _ => Except.error (Error.New "invalid loki service: namespace/service")

/-! ## `main.go`: query building (lines 50-113) -/

/-- The value of `selectors` after lines 64-77 of `main`. -/
def selectors (flagNamespace flagService input : String) : List String :=
  let s0 : List String := []
  let s1 := if flagNamespace ≠ "" then s0 ++ ["namespace=\"" ++ flagNamespace ++ "\""] else s0
  let s2 :=
    if flagNamespace = "" ∧ !strings.ContainsAny input "\x7b\x7d" then s1 ++ ["namespace=~\".+\""]
    else s1
  if flagService ≠ "" then s2 ++ ["service_name=\"" ++ flagService ++ "\""] else s2

/-- The value of `levels` at line 90 of `main` (only reached when `flagLevel` is non-empty). -/
def levels (flagLevel : String) : List String :=
  let l0 := ["info", "warn", "error", "fatal", "critical"]
  let l1 := if flagLevel = "warn" then ["warn", "error", "fatal", "critical"] else l0
  if flagLevel = "error" then ["error", "fatal", "critical"] else l1

/-- The value of `filters` after lines 79-91 of `main`. -/
def filters (flagLevel : String) : List String :=
  if flagLevel ≠ "" then
    [] ++ ["detected_level=~\"" ++ strings.Join (levels flagLevel) "|" ++ "\""]
  else []

/-- The value of `query` after lines 93-105 of `main`: the selector clause, or the panic of
line 101. -/
def selectorClause (flagNamespace flagService input : String) : Except String String :=
  let query := if strings.ContainsAny input "\x7b\x7d" then input else ""
  if (selectors flagNamespace flagService input).length > 0 then
    if query ≠ "" then Except.error "cannot mix selectors with query"
    else Except.ok ("\x7b " ++ strings.Join (selectors flagNamespace flagService input) ", " ++ " \x7d")
  else Except.ok query

/-- Lines 107-109 of `main`: the filter stages are appended to the query. -/
def appendFilters (query : String) (fs : List String) : String :=
  if fs.length > 0 then query ++ " | " ++ strings.Join fs " | " else query

/-- Lines 111-113 of `main`: a raw fragment without braces is appended as a pipe stage. -/
def appendRaw (query input : String) : String :=
  if input ≠ "" ∧ !strings.ContainsAny input "\x7b\x7d" then
    query ++ " | " ++ strings.TrimLeft input "| "
  else query

/-- Lines 60-113 of `main`: the query built from the flags and the positional argument
`arg` (the empty string when there is none), or the panic message. -/
def buildQuery (flagNamespace flagService flagLevel arg : String) : Except String String :=
  let input := if arg = "\x7b\x7d" then "" else arg
  match selectorClause flagNamespace flagService input with
  | Except.error e => Except.error e
  | Except.ok query => Except.ok (appendRaw (appendFilters query (filters flagLevel)) input)


/-! ## `main.go`: the program -/

/-- The package variables set from the command line by `init`. -/
structure Flags where
  flagArgs : List String
  flagNamespace : String
  flagService : String
  flagLimit : Int
  flagLevel : String
  flagSince : Int

/-- A `slog.Record` handed to the handler. -/
structure Record where
  Time : time.Time
  Level : Int
  Message : String
  Attrs : List (String × String)
  deriving DecidableEq, Repr

/-- What `main` does that is visible outside of it, in order. -/
inductive Event
  /-- A call of `lokiClient`. -/
  | lokiClient (lokiURL : String)
  /-- A call of `QueryRange`. -/
  | QueryRange (query : String) (options : loki.QueryRangeOptions)
  /-- A record passed to `Handle`. -/
  | Handle (r : Record)
  deriving DecidableEq, Repr

/-- How `main` ends: it returns, or panics with a string or with an error. -/
inductive Exit
  | returned
  | panicString (msg : String)
  | panicError (err : Error)
  deriving DecidableEq, Repr

/-- One run of `main`. -/
structure Run where
  events : List Event
  exit : Exit
  deriving DecidableEq, Repr

/-- The map lookup `labels[key]`: the empty string when the key is absent. -/
def mapIndex (labels : List (String × String)) (key : String) : String :=
  match labels.find? (fun kv => kv.1 = key) with
  | some kv => kv.2
  | none => ""

/-- The `switch` of `main` on `labels["detected_level"]`; the numbers are those of
`slog.LevelDebug`, `LevelInfo` (the zero value), `LevelWarn` and `LevelError`. -/
def recordLevel (labels : List (String × String)) : Int :=
  let l := mapIndex labels "detected_level"
  if l = "debug" then -4
  else if l = "info" then 0
  else if l = "warn" then 4
  else if l = "error" ∨ l = "fatal" ∨ l = "critical" then 8
  else 0

/-- The records that the loops of `main` over `result.Data.Result` hand to the handler
(the attributes in the order of the association list). -/
def records (result : loki.Response) : List Record :=
  result.Result.flatMap (fun stream =>
    stream.Values.map (fun value =>
      { Time := value.Timestamp, Level := recordLevel stream.Stream, Message := value.Text,
        Attrs := stream.Stream }))

/-- The function `main`; `now` is the value of `time.Now()`. -/
def main (k : Cluster) (tr : loki.Transport) (now : time.Time) (f : Flags) : Run :=
  if f.flagArgs.length > 1 then { events := [], exit := Exit.panicString "too many arguments" }
  else
    let input := match f.flagArgs with
      | [] => ""
      | a :: _ => a
    match buildQuery f.flagNamespace f.flagService f.flagLevel input with
    | Except.error msg => { events := [], exit := Exit.panicString msg }
    | Except.ok query =>
      match lokiClient k "" with
      | Except.error err => { events := [Event.lokiClient ""], exit := Exit.panicError err }
      | Except.ok l =>
        let options : loki.QueryRangeOptions :=
          if f.flagSince > 0 then
            { Limit := some f.flagLimit, Start := some (now.Add (-f.flagSince)), End := some now }
          else { Limit := some f.flagLimit, Start := none, End := none }
        match l.QueryRange tr query (some options) with
        | Except.error err =>
          { events := [Event.lokiClient "", Event.QueryRange query options],
            exit := Exit.panicError err }
        | Except.ok result =>
          { events := [Event.lokiClient "", Event.QueryRange query options]
              ++ (records result).map Event.Handle,
            exit := Exit.returned }

end trail

/-! ## Definitions used in the statements -/

/-- The rank of a severity in the ordering `debug < info < warn < error ≡ fatal ≡ critical`
of the specification. -/
def severityRank (level : String) : Nat :=
  if level = "debug" then 0
  else if level = "info" then 1
  else if level = "warn" then 2
  else 3

/-- The severities at or above `level` in the ordering of the specification. -/
def atOrAbove (level : String) : List String :=
  ["debug", "info", "warn", "error", "fatal", "critical"].filter
    (fun l => severityRank level ≤ severityRank l)

/-- A cluster whose kube config loads, with API server `https://k8s`, and whose service
list is `items`. -/
def sampleCluster (items : Except Error (List trail.Service)) : trail.Cluster where
  UserHomeDir := Except.ok "/home/u"
  Join := fun elems => strings.Join elems "/"
  ReadFile := fun _ => Except.ok "apiVersion: v1"
  NewClientConfigFromBytes := fun _ => Except.ok (Except.ok "https://k8s")
  NewForConfig := fun _ => Except.ok ()
  HTTPClientFor := fun host => Except.ok (loki.HTTPClient.RestClient host)
  List := fun _ _ => items
  URLString := fun raw => raw

/-- The number that a list of decimal digits denotes, read after the digits of `n`. -/
def decVal : List Char → Nat → Nat
  | [], n => n
  | c :: cs, n => decVal cs (n * 10 + (c.toNat - 48))

/-! ## Lemmas on the string functions -/

open trail

theorem containsAny_ne_empty (s chars : String) (h : strings.ContainsAny s chars = true) :
    s ≠ "" := by
  intro hs
  subst hs
  simp [strings.ContainsAny] at h

theorem appendFilters_filters (query flagLevel : String) :
    appendFilters query (filters flagLevel) =
      query ++ (if flagLevel ≠ "" then
        " | detected_level=~\"" ++ strings.Join (levels flagLevel) "|" ++ "\"" else "") := by
  by_cases h : flagLevel = ""
  · simp [appendFilters, filters, h]
  · simp only [appendFilters, filters, h, strings.Join, List.nil_append, List.length_singleton,
      gt_iff_lt, Nat.lt_one_iff, Nat.one_pos, if_true, ne_eq, not_false_eq_true]
    rw [String.append_assoc]
    congr 1

theorem appendRaw_eq (query input : String) :
    appendRaw query input =
      query ++ (if input ≠ "" ∧ strings.ContainsAny input "\x7b\x7d" = false then
        " | " ++ strings.TrimLeft input "| " else "") := by
  unfold appendRaw
  by_cases h : input ≠ "" ∧ strings.ContainsAny input "\x7b\x7d" = false
  · have h2 : input ≠ "" ∧ (!strings.ContainsAny input "\x7b\x7d") = true := by
      simpa using h
    rw [if_pos h2, if_pos h, String.append_assoc]
  · have h2 : ¬ (input ≠ "" ∧ (!strings.ContainsAny input "\x7b\x7d") = true) := by
      simpa using h
    rw [if_neg h2, if_neg h]
    simp

theorem selectors_noBraces (ns svc input : String)
    (h : strings.ContainsAny input "\x7b\x7d" = false) :
    selectors ns svc input =
      (if ns ≠ "" then ["namespace=\"" ++ ns ++ "\""] else ["namespace=~\".+\""])
        ++ (if svc ≠ "" then ["service_name=\"" ++ svc ++ "\""] else []) := by
  by_cases hn : ns = "" <;> by_cases hs : svc = "" <;> simp [selectors, hn, hs, h]

theorem selectorClause_noBraces (ns svc input : String)
    (h : strings.ContainsAny input "\x7b\x7d" = false) :
    selectorClause ns svc input =
      Except.ok ("\x7b " ++ strings.Join
        ((if ns ≠ "" then ["namespace=\"" ++ ns ++ "\""] else ["namespace=~\".+\""])
          ++ (if svc ≠ "" then ["service_name=\"" ++ svc ++ "\""] else [])) ", " ++ " \x7d") := by
  unfold selectorClause
  rw [selectors_noBraces ns svc input h]
  by_cases hn : ns = "" <;> by_cases hs : svc = "" <;> simp [hn, hs, h]

theorem buildQuery_noBraces (ns svc level arg : String)
    (h : strings.ContainsAny arg "\x7b\x7d" = false) :
    buildQuery ns svc level arg =
      Except.ok ("\x7b " ++ strings.Join
        ((if ns ≠ "" then ["namespace=\"" ++ ns ++ "\""] else ["namespace=~\".+\""])
          ++ (if svc ≠ "" then ["service_name=\"" ++ svc ++ "\""] else [])) ", " ++ " \x7d"
        ++ (if level ≠ "" then
          " | detected_level=~\"" ++ strings.Join (levels level) "|" ++ "\"" else "")
        ++ (if arg ≠ "" ∧ strings.ContainsAny arg "\x7b\x7d" = false then
          " | " ++ strings.TrimLeft arg "| " else "")) := by
  have harg : arg ≠ "\x7b\x7d" := by
    intro he
    rw [he] at h
    revert h
    decide
  unfold buildQuery
  simp only [if_neg harg]
  rw [selectorClause_noBraces ns svc arg h]
  simp only []
  rw [appendFilters_filters, appendRaw_eq]

theorem buildQuery_ok (ns svc level arg q : String)
    (h : buildQuery ns svc level arg = Except.ok q) :
    ∃ sel, selectorClause ns svc (if arg = "\x7b\x7d" then "" else arg) = Except.ok sel ∧
      q = sel
        ++ (if level ≠ "" then
          " | detected_level=~\"" ++ strings.Join (levels level) "|" ++ "\"" else "")
        ++ (if (if arg = "\x7b\x7d" then "" else arg) ≠ "" ∧
              strings.ContainsAny (if arg = "\x7b\x7d" then "" else arg) "\x7b\x7d" = false then
          " | " ++ strings.TrimLeft (if arg = "\x7b\x7d" then "" else arg) "| " else "") := by
  unfold buildQuery at h
  simp only [] at h
  cases hs : selectorClause ns svc (if arg = "\x7b\x7d" then "" else arg) with
  | error e => rw [hs] at h; cases h
  | ok sel =>
    rw [hs] at h
    refine ⟨sel, rfl, ?_⟩
    have h2 := Except.ok.inj h
    rw [← h2, appendFilters_filters, appendRaw_eq]

/-! ## Theorems on query building -/

/-- C1 (counterexample): with namespace empty, service `api`, level `error` and no raw
fragment the built query is not `{ service_name="api" } | detected_level=~"error|fatal|critical"`:
it also holds the catch-all namespace selector. -/
theorem buildQuery_api_error_not_bare :
    buildQuery "" "api" "error" "" ≠
      Except.ok "\x7b service_name=\"api\" \x7d | detected_level=~\"error|fatal|critical\"" ∧
    buildQuery "" "api" "error" "" =
      Except.ok "\x7b namespace=~\".+\", service_name=\"api\" \x7d | detected_level=~\"error|fatal|critical\"" := by
  decide

/-- C1 (amended): for every non-empty service, with namespace and raw fragment empty and
level `error`, the built query is exactly
`{ namespace=~".+", service_name="<service>" } | detected_level=~"error|fatal|critical"`. -/
theorem buildQuery_service_error (svc : String) (h : svc ≠ "") :
    buildQuery "" svc "error" "" =
      Except.ok ("\x7b namespace=~\".+\", service_name=\"" ++ svc
        ++ "\" \x7d | detected_level=~\"error|fatal|critical\"") := by
  rw [buildQuery_noBraces "" svc "error" "" (by decide)]
  congr 1
  apply String.ext
  simp [strings.Join, levels, h, String.data_append]

theorem buildQuery_service_error_witness :
    buildQuery "" "api" "error" "" =
      Except.ok ("\x7b namespace=~\".+\", service_name=\"" ++ "api"
        ++ "\" \x7d | detected_level=~\"error|fatal|critical\"") :=
  buildQuery_service_error "api" (by decide)

/-- C2: a raw fragment that contains a brace and is not `{}`, together with a non-empty
namespace or service, makes query building panic with "cannot mix selectors with query",
and `main` then ends with that panic without having called `lokiClient` or `QueryRange`. -/
theorem buildQuery_mix_panics (ns svc level arg : String)
    (hbrace : strings.ContainsAny arg "\x7b\x7d" = true) (hne : arg ≠ "\x7b\x7d")
    (hsel : ns ≠ "" ∨ svc ≠ "") :
    buildQuery ns svc level arg = Except.error "cannot mix selectors with query" ∧
    ∀ (k : Cluster) (tr : loki.Transport) (now : time.Time) (limit since : Int),
      main k tr now
        { flagArgs := [arg], flagNamespace := ns, flagService := svc, flagLimit := limit,
          flagLevel := level, flagSince := since } =
        { events := [], exit := Exit.panicString "cannot mix selectors with query" } := by
  have hq : buildQuery ns svc level arg = Except.error "cannot mix selectors with query" := by
    have hlen : (selectors ns svc arg).length > 0 := by
      rcases hsel with hn | hs
      · by_cases hs : svc = "" <;> simp [selectors, hn, hs, hbrace]
      · by_cases hn : ns = "" <;> simp [selectors, hn, hs, hbrace]
    have harg : arg ≠ "" := containsAny_ne_empty arg _ hbrace
    unfold buildQuery selectorClause
    simp only [if_neg hne, hbrace, if_true, if_pos hlen, ne_eq, harg, not_false_eq_true]
  refine ⟨hq, ?_⟩
  intro k tr now limit since
  simp [main, hq]

theorem buildQuery_mix_panics_witness :
    strings.ContainsAny "\x7bapp=\"x\"\x7d" "\x7b\x7d" = true ∧
    buildQuery "prod" "" "warn" "\x7bapp=\"x\"\x7d" =
      Except.error "cannot mix selectors with query" :=
  ⟨by decide, (buildQuery_mix_panics "prod" "" "warn" "\x7bapp=\"x\"\x7d" (by decide)
    (by decide) (Or.inl (by decide))).1⟩

/-- C3: whenever query building succeeds with query `q`, `q` is the selector clause `sel`
followed by the level filter stage and then the optional raw stage: for level `warn` the
filter stage is ` | detected_level=~"warn|error|fatal|critical"`, for level `error` it is
` | detected_level=~"error|fatal|critical"`, and for the empty level there is none, so that
`q` is the selector clause followed only by the optional raw stage. -/
theorem buildQuery_level_stage (ns svc level arg q : String)
    (h : buildQuery ns svc level arg = Except.ok q) :
    ∃ sel raw,
      selectorClause ns svc (if arg = "\x7b\x7d" then "" else arg) = Except.ok sel ∧
      raw = (if (if arg = "\x7b\x7d" then "" else arg) ≠ "" ∧
              strings.ContainsAny (if arg = "\x7b\x7d" then "" else arg) "\x7b\x7d" = false then
          " | " ++ strings.TrimLeft (if arg = "\x7b\x7d" then "" else arg) "| " else "") ∧
      (level = "warn" →
        q = sel ++ " | detected_level=~\"warn|error|fatal|critical\"" ++ raw) ∧
      (level = "error" →
        q = sel ++ " | detected_level=~\"error|fatal|critical\"" ++ raw) ∧
      (level = "" → q = sel ++ raw) := by
  obtain ⟨sel, hsel, hq⟩ := buildQuery_ok ns svc level arg q h
  refine ⟨sel, _, hsel, rfl, ?_, ?_, ?_⟩
  · intro hl
    subst hl
    rw [hq]
    rfl
  · intro hl
    subst hl
    rw [hq]
    rfl
  · intro hl
    subst hl
    rw [hq]
    simp

theorem buildQuery_level_stage_witness :
    ∃ sel raw,
      selectorClause "prod" "api" (if "| json" = "\x7b\x7d" then "" else "| json")
        = Except.ok sel ∧
      raw = (if (if "| json" = "\x7b\x7d" then "" else "| json") ≠ "" ∧
              strings.ContainsAny (if "| json" = "\x7b\x7d" then "" else "| json") "\x7b\x7d"
                = false then
          " | " ++ strings.TrimLeft (if "| json" = "\x7b\x7d" then "" else "| json") "| "
          else "") ∧
      ("warn" = "warn" →
        "\x7b namespace=\"prod\", service_name=\"api\" \x7d | detected_level=~\"warn|error|fatal|critical\" | json"
          = sel ++ " | detected_level=~\"warn|error|fatal|critical\"" ++ raw) ∧
      ("warn" = "error" →
        "\x7b namespace=\"prod\", service_name=\"api\" \x7d | detected_level=~\"warn|error|fatal|critical\" | json"
          = sel ++ " | detected_level=~\"error|fatal|critical\"" ++ raw) ∧
      ("warn" = "" →
        "\x7b namespace=\"prod\", service_name=\"api\" \x7d | detected_level=~\"warn|error|fatal|critical\" | json"
          = sel ++ raw) :=
  buildQuery_level_stage "prod" "api" "warn" "| json"
    "\x7b namespace=\"prod\", service_name=\"api\" \x7d | detected_level=~\"warn|error|fatal|critical\" | json"
    (by decide)

/-- C4: for a raw fragment without braces, the selector clause is `{ S }` where `S` joins
with `, ` the selector `namespace="<namespace>"` (or the catch-all `namespace=~".+"` when
the namespace is empty) and then `service_name="<service>"` when the service is non-empty;
the built query is that clause followed by the filter and raw stages. With a non-empty
namespace and an empty service the clause is `{ namespace="<namespace>" }` and the
catch-all is not among the selectors; with everything empty the clause is the catch-all
`{ namespace=~".+" }`. -/
theorem selectorClause_structured (ns svc level arg : String)
    (h : strings.ContainsAny arg "\x7b\x7d" = false) :
    selectorClause ns svc arg =
      Except.ok ("\x7b " ++ strings.Join
        ((if ns ≠ "" then ["namespace=\"" ++ ns ++ "\""] else ["namespace=~\".+\""])
          ++ (if svc ≠ "" then ["service_name=\"" ++ svc ++ "\""] else [])) ", " ++ " \x7d") ∧
    (∃ rest, buildQuery ns svc level arg =
      Except.ok ("\x7b " ++ strings.Join
        ((if ns ≠ "" then ["namespace=\"" ++ ns ++ "\""] else ["namespace=~\".+\""])
          ++ (if svc ≠ "" then ["service_name=\"" ++ svc ++ "\""] else [])) ", " ++ " \x7d"
        ++ rest)) ∧
    (ns ≠ "" → svc = "" →
      selectorClause ns svc arg = Except.ok ("\x7b namespace=\"" ++ ns ++ "\" \x7d") ∧
      selectors ns svc arg = ["namespace=\"" ++ ns ++ "\""] ∧
      "namespace=~\".+\"" ∉ selectors ns svc arg) ∧
    (ns = "" → svc = "" → arg = "" →
      selectorClause ns svc arg = Except.ok "\x7b namespace=~\".+\" \x7d" ∧
      ∃ rest, buildQuery ns svc level arg = Except.ok ("\x7b namespace=~\".+\" \x7d" ++ rest)) := by
  have hb := buildQuery_noBraces ns svc level arg h
  have hrest : ∃ rest, buildQuery ns svc level arg =
      Except.ok ("\x7b " ++ strings.Join
        ((if ns ≠ "" then ["namespace=\"" ++ ns ++ "\""] else ["namespace=~\".+\""])
          ++ (if svc ≠ "" then ["service_name=\"" ++ svc ++ "\""] else [])) ", " ++ " \x7d"
        ++ rest) := ⟨_, by rw [hb, String.append_assoc]⟩
  refine ⟨selectorClause_noBraces ns svc arg h, hrest, ?_, ?_⟩
  · intro hn hs
    subst hs
    have hsel : selectors ns "" arg = ["namespace=\"" ++ ns ++ "\""] := by
      rw [selectors_noBraces ns "" arg h]
      simp [hn]
    refine ⟨?_, hsel, ?_⟩
    · rw [selectorClause_noBraces ns "" arg h]
      congr 1
      apply String.ext
      simp [strings.Join, hn, String.data_append]
    · rw [hsel]
      intro hmem
      have := congrArg String.data (List.mem_singleton.mp hmem)
      simp [String.data_append] at this
  · intro hn hs ha
    subst hn hs ha
    obtain ⟨rest, hr⟩ := hrest
    exact ⟨by decide, rest, hr⟩

theorem selectorClause_structured_witness :
    strings.ContainsAny "| json" "\x7b\x7d" = false ∧
    selectorClause "prod" "api" "| json" =
      Except.ok ("\x7b " ++ strings.Join
        ((if "prod" ≠ "" then ["namespace=\"" ++ "prod" ++ "\""] else ["namespace=~\".+\""])
          ++ (if "api" ≠ "" then ["service_name=\"" ++ "api" ++ "\""] else [])) ", "
        ++ " \x7d") :=
  ⟨by decide, (selectorClause_structured "prod" "api" "warn" "| json" (by decide)).1⟩

/-- C10 (counterexample): for level `debug` the alternation built by `main` is
`info|warn|error|fatal|critical`: it does not include `debug`, whereas the severities at or
above `debug` in the ordering of the specification do. -/
theorem levels_debug_excludes_debug :
    "debug" ∉ levels "debug" ∧ "debug" ∈ atOrAbove "debug" ∧
    levels "debug" ≠ atOrAbove "debug" ∧
    filters "debug" = ["detected_level=~\"info|warn|error|fatal|critical\""] := by
  decide

/-- C10 (amended): for the levels `warn` and `error` the alternation in the
`detected_level` filter is exactly the severities at or above the requested level in the
ordering `debug < info < warn < error ≡ fatal ≡ critical`; for the level `debug` it is the
severities at or above `info`, which leaves `debug` out. -/
theorem levels_at_or_above :
    levels "warn" = atOrAbove "warn" ∧
    filters "warn" = ["detected_level=~\"warn|error|fatal|critical\""] ∧
    levels "error" = atOrAbove "error" ∧
    filters "error" = ["detected_level=~\"error|fatal|critical\""] ∧
    levels "debug" = atOrAbove "info" ∧
    filters "debug" = ["detected_level=~\"info|warn|error|fatal|critical\""] := by
  decide

/-! ## Decimal rendering and `strconv.ParseInt` -/

theorem decVal_ge (cs : List Char) (n : Nat) : n ≤ decVal cs n := by
  induction cs generalizing n with
  | nil => exact Nat.le_refl n
  | cons c cs ih =>
    have := ih (n * 10 + (c.toNat - 48))
    simp only [decVal]
    omega

theorem parseUintLoop_digits (cs : List Char) (n : Nat)
    (hd : ∀ c ∈ cs, 48 ≤ c.toNat ∧ c.toNat ≤ 57) (hv : decVal cs n < 2 ^ 64) :
    strconv.parseUintLoop cs n = (decVal cs n, none) := by
  induction cs generalizing n with
  | nil => rfl
  | cons c cs ih =>
    have hc := hd c (List.mem_cons_self c cs)
    have hv2 : decVal cs (n * 10 + (c.toNat - 48)) < 2 ^ 64 := hv
    have hge := decVal_ge cs (n * 10 + (c.toNat - 48))
    have hn : ¬ n ≥ (2 ^ 64 - 1) / 10 + 1 := by omega
    have h10 : (n * 10) % 2 ^ 64 = n * 10 := Nat.mod_eq_of_lt (by omega)
    have h1 : (n * 10 + (c.toNat - 48)) % 2 ^ 64 = n * 10 + (c.toNat - 48) :=
      Nat.mod_eq_of_lt (by omega)
    have hov : ¬ (n * 10 + (c.toNat - 48) < n * 10 ∨ n * 10 + (c.toNat - 48) > 2 ^ 64 - 1) := by
      omega
    simp only [strconv.parseUintLoop, hc, and_self, if_true, if_neg hn, h10, h1, if_neg hov]
    exact ih _ (fun x hx => hd x (List.mem_cons_of_mem c hx)) hv2

theorem digitChar_toNat (m : Nat) (h : m < 10) : (Nat.digitChar m).toNat = m + 48 := by
  interval_cases m <;> rfl

theorem toDigitsCore_digits (fuel n : Nat) (ds : List Char) :
    ∀ c ∈ Nat.toDigitsCore 10 fuel n ds, (48 ≤ c.toNat ∧ c.toNat ≤ 57) ∨ c ∈ ds := by
  induction fuel generalizing n ds with
  | zero =>
    intro c hc
    exact Or.inr hc
  | succ fuel ih =>
    intro c hc
    have hdig := digitChar_toNat (n % 10) (Nat.mod_lt n (by decide))
    simp only [Nat.toDigitsCore] at hc
    split at hc
    · rcases List.mem_cons.mp hc with h | h
      · left
        rw [h, hdig]
        omega
      · exact Or.inr h
    · rcases ih (n / 10) _ c hc with h | h
      · exact Or.inl h
      · rcases List.mem_cons.mp h with h | h
        · left
          rw [h, hdig]
          omega
        · exact Or.inr h

theorem toDigitsCore_decVal (fuel n : Nat) (ds : List Char) (h : n < fuel) :
    decVal (Nat.toDigitsCore 10 fuel n ds) 0 = decVal ds n := by
  induction fuel generalizing n ds with
  | zero => omega
  | succ fuel ih =>
    have hdig := digitChar_toNat (n % 10) (Nat.mod_lt n (by decide))
    simp only [Nat.toDigitsCore]
    split
    · rename_i h0
      simp only [decVal, hdig]
      congr 1
      omega
    · rename_i h0
      rw [ih (n / 10) _ (by omega)]
      simp only [decVal, hdig]
      congr 1
      omega

theorem toDigitsCore_ne_nil (fuel n : Nat) (ds : List Char) (h : 0 < fuel) :
    Nat.toDigitsCore 10 fuel n ds ≠ [] := by
  induction fuel generalizing n ds with
  | zero => omega
  | succ fuel ih =>
    simp only [Nat.toDigitsCore]
    split
    · exact List.cons_ne_nil _ _
    · rename_i h0
      cases fuel with
      | zero => simp [Nat.toDigitsCore]
      | succ f => exact ih _ _ (Nat.succ_pos f)

theorem ParseUint_toDigits (n : Nat) (h : n < 2 ^ 64) :
    strconv.ParseUint (Nat.toDigits 10 n) = (n, none) := by
  have hne : Nat.toDigits 10 n ≠ [] := toDigitsCore_ne_nil (n + 1) n [] (Nat.succ_pos n)
  have hval : decVal (Nat.toDigits 10 n) 0 = n :=
    toDigitsCore_decVal (n + 1) n [] (Nat.lt_succ_self n)
  have hdig : ∀ c ∈ Nat.toDigits 10 n, 48 ≤ c.toNat ∧ c.toNat ≤ 57 := by
    intro c hc
    rcases toDigitsCore_digits (n + 1) n [] c hc with h | h
    · exact h
    · cases h
  unfold strconv.ParseUint
  rw [if_neg hne, parseUintLoop_digits _ 0 hdig (by rw [hval]; exact h), hval]

theorem parseIntSigned_toDigits (neg : Bool) (m : Nat)
    (h : if neg then m ≤ 2 ^ 63 else m < 2 ^ 63) :
    strconv.parseIntSigned neg (Nat.toDigits 10 m) =
      (if neg then -(m : Int) else (m : Int), none) := by
  cases neg with
  | false =>
    have h : m < 2 ^ 63 := h
    have hm : m < 2 ^ 64 := by omega
    have h1 : ¬ ((!false) = true ∧ m ≥ 2 ^ 63) := by
      intro hc
      omega
    have h2 : ¬ (false = true ∧ m > 2 ^ 63) := by
      intro hc
      cases hc.1
    have h3 : strconv.toInt64 (m : Int) = (m : Int) := by
      unfold strconv.toInt64
      omega
    unfold strconv.parseIntSigned
    rw [ParseUint_toDigits m hm]
    simp only [if_neg h1, if_neg h2, h3, Bool.false_eq_true, if_false, false_and]
  | true =>
    have h : m ≤ 2 ^ 63 := h
    have hm : m < 2 ^ 64 := by omega
    have h1 : ¬ ((!true) = true ∧ m ≥ 2 ^ 63) := by
      intro hc
      cases hc.1
    have h2 : ¬ (true = true ∧ m > 2 ^ 63) := by
      intro hc
      omega
    have h3 : strconv.toInt64 (-strconv.toInt64 (m : Int)) = -(m : Int) := by
      unfold strconv.toInt64
      omega
    unfold strconv.parseIntSigned
    rw [ParseUint_toDigits m hm]
    have h4 : ¬ (True ∧ m > 2 ^ 63) := by
      intro hc
      omega
    simp only [if_neg h1, if_neg h2, h3, if_true, if_neg h4]

theorem ParseInt_toString (n : Int) (hlo : -(2 ^ 63) ≤ n) (hhi : n < 2 ^ 63) :
    strconv.ParseInt (toString n) = (n, none) := by
  cases n with
  | ofNat m =>
    have hdata : (toString (Int.ofNat m)).data = Nat.toDigits 10 m := rfl
    have hne : Nat.toDigits 10 m ≠ [] := toDigitsCore_ne_nil (m + 1) m [] (Nat.succ_pos m)
    have hm : m < 2 ^ 63 := by
      have : ((m : Nat) : Int) < 2 ^ 63 := hhi
      omega
    have hp := parseIntSigned_toDigits false m hm
    unfold strconv.ParseInt
    rw [hdata]
    cases hd : Nat.toDigits 10 m with
    | nil => exact absurd hd hne
    | cons c cs =>
      have hc : 48 ≤ c.toNat ∧ c.toNat ≤ 57 := by
        rcases toDigitsCore_digits (m + 1) m [] c (by
          show c ∈ Nat.toDigits 10 m
          rw [hd]
          exact List.mem_cons_self c cs) with h | h
        · exact h
        · cases h
      have hplus : c ≠ '+' := by
        intro he
        rw [he] at hc
        revert hc
        decide
      have hminus : c ≠ '-' := by
        intro he
        rw [he] at hc
        revert hc
        decide
      simp only [if_neg hplus, if_neg hminus]
      rw [← hd, hp]
      rfl
  | negSucc m =>
    have hdata : (toString (Int.negSucc m)).data = '-' :: Nat.toDigits 10 (m + 1) := rfl
    have hm : m + 1 ≤ 2 ^ 63 := by
      have h1 : -(2 ^ 63 : Int) ≤ Int.negSucc m := hlo
      rw [Int.negSucc_eq] at h1
      omega
    have hp := parseIntSigned_toDigits true (m + 1) hm
    unfold strconv.ParseInt
    rw [hdata]
    have h1 : ('-' : Char) ≠ '+' := by decide
    simp only [if_neg h1, if_true]
    rw [hp]
    simp only [if_true]
    congr 1

theorem time_Unix_nanos (n : Int) :
    (time.Unix 0 n).sec * 1000000000 + (time.Unix 0 n).nsec = n ∧
    0 ≤ (time.Unix 0 n).nsec ∧ (time.Unix 0 n).nsec < 1000000000 := by
  have hdiv : ∃ q : Int, Int.tdiv n 1000000000 = q ∧
      -1000000000 < n - q * 1000000000 ∧ n - q * 1000000000 < 1000000000 := by
    by_cases h0 : 0 ≤ n
    · refine ⟨n / 1000000000, Int.tdiv_eq_ediv h0 (by decide), ?_, ?_⟩ <;> omega
    · refine ⟨-((-n) / 1000000000), ?_, ?_, ?_⟩
      · have h1 : n = -(-n) := by omega
        rw [h1, Int.neg_tdiv, Int.tdiv_eq_ediv (by omega) (by decide)]
        simp
      · omega
      · omega
  obtain ⟨q, hq, hlo, hhi⟩ := hdiv
  unfold time.Unix
  rw [hq]
  by_cases h1 : n < 0 ∨ n ≥ 1000000000
  · rw [if_pos h1]
    simp only []
    by_cases h2 : n - q * 1000000000 < 0
    · rw [if_pos h2]
      simp only []
      omega
    · rw [if_neg h2]
      simp only []
      omega
  · rw [if_neg h1]
    simp only []
    omega

/-! ## Theorems on the Loki client -/

/-- C5: `Log.UnmarshalJSON` decodes the array `[t, s]` of two strings, `t` the decimal
rendering of a signed 64-bit integer `n`, into the `Log` whose `Timestamp` is `n`
nanoseconds after the Unix epoch and whose `Text` is `s` (so
`["1700000000000000000","hello"]` gives 1,700,000,000 s and 0 ns, and `hello`); it returns
an error for every array whose length is not 2, for every first element that is not a
string that `strconv.ParseInt` accepts as a base-10 `int64` (such as `abc`, the empty
string, `1.5`, 2^63 or a JSON number), and for every second element that is not a
string. -/
theorem Log_UnmarshalJSON_decodes (l : loki.Log) :
    (∀ (n : Int) (s : String), -(2 ^ 63) ≤ n → n < 2 ^ 63 →
      loki.Log.UnmarshalJSON l (JSON.array [JSON.string (toString n), JSON.string s]) =
        ({ Timestamp := time.Unix 0 n, Text := s }, none) ∧
      (time.Unix 0 n).sec * 1000000000 + (time.Unix 0 n).nsec = n ∧
      0 ≤ (time.Unix 0 n).nsec ∧ (time.Unix 0 n).nsec < 1000000000) ∧
    loki.Log.UnmarshalJSON l
        (JSON.array [JSON.string "1700000000000000000", JSON.string "hello"]) =
      ({ Timestamp := { sec := 1700000000, nsec := 0 }, Text := "hello" }, none) ∧
    (∀ elems : List JSON, elems.length ≠ 2 →
      (loki.Log.UnmarshalJSON l (JSON.array elems)).2 ≠ none) ∧
    (∀ t0 t1 : JSON, (∀ ts, t0 = JSON.string ts → (strconv.ParseInt ts).2 ≠ none) →
      (loki.Log.UnmarshalJSON l (JSON.array [t0, t1])).2 ≠ none) ∧
    (∀ t0 t1 : JSON, (∀ line, t1 ≠ JSON.string line) →
      (loki.Log.UnmarshalJSON l (JSON.array [t0, t1])).2 ≠ none) ∧
    (strconv.ParseInt "abc").2 ≠ none ∧ (strconv.ParseInt "").2 ≠ none ∧
    (strconv.ParseInt "1.5").2 ≠ none ∧ (strconv.ParseInt "9223372036854775808").2 ≠ none ∧
    (∀ t1 lit, (loki.Log.UnmarshalJSON l (JSON.array [JSON.number lit, t1])).2 ≠ none) := by
  refine ⟨?_, ?_, ?_, ?_, ?_, by decide, by decide, by decide, by decide, ?_⟩
  · intro n s hlo hhi
    refine ⟨?_, time_Unix_nanos n⟩
    simp only [loki.Log.UnmarshalJSON, loki.unmarshalSlice, ParseInt_toString n hlo hhi]
  · have h := ParseInt_toString 1700000000000000000 (by decide) (by decide)
    have hs : toString (1700000000000000000 : Int) = "1700000000000000000" := by decide
    rw [hs] at h
    simp only [loki.Log.UnmarshalJSON, loki.unmarshalSlice, h]
    rfl
  · intro elems hlen
    match elems, hlen with
    | [], _ => simp [loki.Log.UnmarshalJSON, loki.unmarshalSlice]
    | [_], _ => simp [loki.Log.UnmarshalJSON, loki.unmarshalSlice]
    | [_, _], h => exact absurd rfl h
    | _ :: _ :: _ :: _, _ => simp [loki.Log.UnmarshalJSON, loki.unmarshalSlice]
  · intro t0 t1 h
    cases t0 with
    | string ts =>
      have hp := h ts rfl
      simp only [loki.Log.UnmarshalJSON, loki.unmarshalSlice]
      rcases hparse : strconv.ParseInt ts with ⟨v, e⟩
      rw [hparse] at hp
      cases e with
      | none => exact absurd rfl hp
      | some err => simp
    | _ => simp [loki.Log.UnmarshalJSON, loki.unmarshalSlice]
  · intro t0 t1 h
    cases t0 with
    | string ts =>
      simp only [loki.Log.UnmarshalJSON, loki.unmarshalSlice]
      rcases hparse : strconv.ParseInt ts with ⟨v, e⟩
      cases e with
      | some err => simp
      | none =>
        cases t1 with
        | string line => exact absurd rfl (h line)
        | _ => simp
    | _ => simp [loki.Log.UnmarshalJSON, loki.unmarshalSlice]
  · intro t1 lit
    simp [loki.Log.UnmarshalJSON, loki.unmarshalSlice]

theorem Values_lookup_Set_same (v : url.Values) (key value : String) :
    url.Values.lookup (url.Values.Set v key value) key = some [value] := by
  simp [url.Values.lookup, url.Values.Set]

theorem Values_lookup_Set_other (v : url.Values) (key value key2 : String) (h : key ≠ key2) :
    url.Values.lookup (url.Values.Set v key value) key2 = url.Values.lookup v key2 := by
  have hfilter : ∀ w : url.Values,
      (w.filter (fun kv => kv.1 ≠ key)).find? (fun kv => kv.1 = key2)
        = w.find? (fun kv => kv.1 = key2) := by
    intro w
    induction w with
    | nil => rfl
    | cons a w ih =>
      by_cases h1 : a.1 = key
      · have h2 : ¬ a.1 = key2 := fun h3 => h (h1.symm.trans h3)
        have hf : List.filter (fun kv : String × List String => decide (kv.1 ≠ key)) (a :: w)
            = List.filter (fun kv => decide (kv.1 ≠ key)) w :=
          List.filter_cons_of_neg (by simpa using h1)
        rw [hf, ih, List.find?_cons_of_neg _ (by simpa using h2)]
      · have hf : List.filter (fun kv : String × List String => decide (kv.1 ≠ key)) (a :: w)
            = a :: List.filter (fun kv => decide (kv.1 ≠ key)) w :=
          List.filter_cons_of_pos (by simpa using h1)
        rw [hf]
        by_cases h2 : a.1 = key2
        · rw [List.find?_cons_of_pos _ (by simpa using h2),
            List.find?_cons_of_pos _ (by simpa using h2)]
        · rw [List.find?_cons_of_neg _ (by simpa using h2),
            List.find?_cons_of_neg _ (by simpa using h2), ih]
  simp only [url.Values.lookup, url.Values.Set]
  rw [List.find?_cons_of_neg _ (by simpa using h), hfilter]

/-- C6: when `Limit` is set to an integer `n` (any integer, so every positive one) the
request parameters built by `Client.QueryRange` bind `limit` to the literal `100`, whatever
the configured value; when `Limit` is unset (or the options pointer is nil) there is no
`limit` parameter. -/
theorem queryRangeValues_limit (query : String) (start stop : Option time.Time) (n : Int) :
    url.Values.lookup
        (loki.queryRangeValues query (some { Limit := some n, Start := start, End := stop }))
        "limit" = some ["100"] ∧
    url.Values.lookup
        (loki.queryRangeValues query (some { Limit := none, Start := start, End := stop }))
        "limit" = none ∧
    url.Values.lookup (loki.queryRangeValues query none) "limit" = none := by
  have hq : ∀ x, url.Values.lookup (if query ≠ "" then url.Values.Set [] "query" query else [])
      "limit" = x ↔ x = none := by
    intro x
    by_cases h : query = ""
    · simp [h, url.Values.lookup, eq_comm]
    · simp [h, url.Values.lookup, url.Values.Set, eq_comm]
  have hs : ("start" : String) ≠ "limit" := by decide
  have he : ("end" : String) ≠ "limit" := by decide
  refine ⟨?_, ?_, ?_⟩
  · cases start <;> cases stop <;>
      simp only [loki.queryRangeValues, Values_lookup_Set_other _ _ _ _ hs,
        Values_lookup_Set_other _ _ _ _ he, Values_lookup_Set_same]
  · cases start <;> cases stop <;>
      simp only [loki.queryRangeValues, Values_lookup_Set_other _ _ _ _ hs,
        Values_lookup_Set_other _ _ _ _ he, hq]
  · simp only [loki.queryRangeValues, hq]

theorem portLoop_eq (ports : List Int) : portLoop ports = decide (3100 ∈ ports) := by
  induction ports with
  | nil => rfl
  | cons p ps ih =>
    by_cases h : p = 3100
    · simp [portLoop, h]
    · have h2 : ¬ (3100 : Int) = p := fun h3 => h h3.symm
      simp [portLoop, h, h2, ih]

theorem headlessLoop_eq (items : List Service) :
    headlessLoop items =
      (items.find? (fun s => decide (s.ClusterIP = "None" ∧ 3100 ∈ s.Ports))).map
        (fun s => (s.Namespace, s.Name)) := by
  induction items with
  | nil => rfl
  | cons s items ih =>
    by_cases h1 : s.ClusterIP = "None"
    · by_cases h2 : (3100 : Int) ∈ s.Ports
      · simp [headlessLoop, portLoop_eq, h1, h2]
      · simp [headlessLoop, portLoop_eq, h1, h2, ih]
    · simp [headlessLoop, h1, ih]

theorem anyLoop_eq (items : List Service) :
    anyLoop items =
      (items.find? (fun s => decide (3100 ∈ s.Ports))).map (fun s => (s.Namespace, s.Name)) := by
  induction items with
  | nil => rfl
  | cons s items ih =>
    by_cases h2 : (3100 : Int) ∈ s.Ports
    · simp [anyLoop, portLoop_eq, h2]
    · simp [anyLoop, portLoop_eq, h2, ih]

theorem discoverService_find (k : Cluster) (ns : String) :
    discoverService k ns =
      (match k.List ns "app.kubernetes.io/name=loki" with
      | Except.error _ => ("", "", false)
      | Except.ok items =>
        match items.find? (fun s => decide (s.ClusterIP = "None" ∧ 3100 ∈ s.Ports)) with
        | some s => (s.Namespace, s.Name, true)
        | none =>
          match items.find? (fun s => decide (3100 ∈ s.Ports)) with
          | some s => (s.Namespace, s.Name, true)
          | none => ("", "", false)) := by
  unfold discoverService
  cases k.List ns "app.kubernetes.io/name=loki" with
  | error e => rfl
  | ok items =>
    simp only [headlessLoop_eq, anyLoop_eq]
    cases items.find? (fun s => decide (s.ClusterIP = "None" ∧ 3100 ∈ s.Ports)) with
    | some s => rfl
    | none =>
      cases items.find? (fun s => decide (3100 ∈ s.Ports)) with
      | some s => rfl
      | none => rfl

theorem discoverService_none (k : Cluster) (ns : String)
    (hnone : ∀ items, k.List ns "app.kubernetes.io/name=loki" = Except.ok items →
      ∀ s ∈ items, (3100 : Int) ∉ s.Ports) :
    discoverService k ns = ("", "", false) := by
  rw [discoverService_find]
  cases hl : k.List ns "app.kubernetes.io/name=loki" with
  | error e => rfl
  | ok items =>
    have hnone := hnone items hl
    have h1 : items.find? (fun s => decide (s.ClusterIP = "None" ∧ 3100 ∈ s.Ports)) = none := by
      rw [List.find?_eq_none]
      intro s hs
      have := hnone s hs
      simp [this]
    have h2 : items.find? (fun s => decide (3100 ∈ s.Ports)) = none := by
      rw [List.find?_eq_none]
      intro s hs
      have := hnone s hs
      simp [this]
    simp only [h1, h2]

/-- C7: for every list of services returned by the cluster API, `discoverService` returns
the namespace and name of the first service in list order that has ClusterIP `None` and
exposes port 3100 whenever there is one (also when a non-headless service exposing port
3100 comes earlier in the list); only when there is none does it return the first service
in list order exposing port 3100, and it reports failure when no service exposes it or the
list call fails. -/
theorem discoverService_prefers_headless (k : Cluster) (ns : String) :
    discoverService k ns =
      (match k.List ns "app.kubernetes.io/name=loki" with
      | Except.error _ => ("", "", false)
      | Except.ok items =>
        match items.find? (fun s => decide (s.ClusterIP = "None" ∧ 3100 ∈ s.Ports)) with
        | some s => (s.Namespace, s.Name, true)
        | none =>
          match items.find? (fun s => decide (3100 ∈ s.Ports)) with
          | some s => (s.Namespace, s.Name, true)
          | none => ("", "", false)) ∧
    discoverService
        (sampleCluster (Except.ok
          [{ Namespace := "logging", Name := "loki", ClusterIP := "10.0.0.7", Ports := [3100] },
           { Namespace := "logging", Name := "loki-headless", ClusterIP := "None",
             Ports := [9095, 3100] }])) "" =
      ("logging", "loki-headless", true) := by
  exact ⟨discoverService_find k ns, by decide⟩

/-- C8: when `lokiClient` is called with the empty URL and discovery finds no service
exposing port 3100 (the list call fails, the list is empty, or no listed service has the
port), it returns no client, hence builds no proxy URL with an empty namespace or service
name; and when the cluster configuration loads, the error it returns is
"invalid loki service: namespace/service". -/
theorem lokiClient_no_service (k : Cluster)
    (hnone : ∀ items, k.List "" "app.kubernetes.io/name=loki" = Except.ok items →
      ∀ s ∈ items, (3100 : Int) ∉ s.Ports) :
    (∀ c, lokiClient k "" ≠ Except.ok c) ∧
    (∀ host restClient, kubernetesConfig k = Except.ok (Except.ok host) →
      k.NewForConfig host = Except.ok () → k.HTTPClientFor host = Except.ok restClient →
      lokiClient k "" = Except.error (Error.New "invalid loki service: namespace/service")) := by
  have hd := discoverService_none k "" hnone
  have hp : url.ParseScheme "" = some "" := by decide
  have hsplit : strings.Split "" '/' = [""] := by decide
  constructor
  · intro c
    unfold lokiClient
    rw [hp]
    simp only [ne_eq, not_true_eq_false, if_false, hd, hsplit, if_true]
    cases h1 : kubernetesConfig k with
    | error e => simp
    | ok clientConfig =>
      cases clientConfig with
      | error e => simp
      | ok restConfig =>
        simp only []
        cases h2 : k.NewForConfig restConfig with
        | error e => simp
        | ok u =>
          simp only []
          cases h3 : k.HTTPClientFor restConfig with
          | error e => simp
          | ok rc => simp
  · intro host restClient hk hn hh
    unfold lokiClient
    rw [hp]
    simp only [ne_eq, not_true_eq_false, if_false, hd, hsplit, if_true, hk, hn, hh]

theorem lokiClient_no_service_witness :
    lokiClient (sampleCluster (Except.ok
        [{ Namespace := "logging", Name := "loki-memberlist", ClusterIP := "None",
           Ports := [7946] }])) "" =
      Except.error (Error.New "invalid loki service: namespace/service") :=
  (lokiClient_no_service (sampleCluster (Except.ok
        [{ Namespace := "logging", Name := "loki-memberlist", ClusterIP := "None",
           Ports := [7946] }]))
    (fun items h => by
      cases h
      decide)).2 "https://k8s"
    (loki.HTTPClient.RestClient "https://k8s") rfl rfl rfl
